import Mathlib

/-!
Verification development for the le-change change-detection engine.

The repository ships the engine as a compiled extension; the Python package
under src/python only re-exports its symbols, and the Python tests and
examples exercise it.  The definitions below are therefore a shallow
embedding of the engine as the specification describes it (each definition's
doc comment records what it models); the theorems settle the specification's
testable properties against this embedding.
-/

set_option linter.unusedVariables false

/-! ## PathNorm (spec section 4.10) -/

/-- Modelled from the spec: `to_posix(p)` replaces every backslash with a
forward slash (PathNorm, section 4.10). -/
def to_posix (p : String) : String :=
  String.mk (p.data.map (fun c => if c = '\\' then '/' else c))

/-- Path-separator test used by the splitter: a character is a separator when
it is a forward slash or a backslash. -/
def isSepChar (c : Char) : Bool :=
  decide (c = '/') || decide (c = '\\')

/-- Splits a character list at every character satisfying `isSep`, dropping
empty segments; the accumulator holds the current segment reversed. -/
def splitBy (isSep : Char → Bool) : List Char → List Char → List (List Char)
  | [], acc => if acc.isEmpty then [] else [acc.reverse]
  | c :: rest, acc =>
    if isSep c then
      if acc.isEmpty then splitBy isSep rest []
      else acc.reverse :: splitBy isSep rest []
    else splitBy isSep rest (c :: acc)

/-- Modelled from the spec: `components(p)` splits on any run of `/` or `\`
and drops empty segments (PathNorm, section 4.10). -/
def components (p : String) : List String :=
  (splitBy isSepChar p.data []).map String.mk

/-- Joins path components with forward slashes. -/
def joinPath (cs : List String) : String :=
  String.intercalate "/" cs

/-- Modelled from the spec: the parent-directory projection used by
`dir_names=true` replaces a path by its parent directory, with the empty
string denoting the repository root (Projector, section 4.8). -/
def parentDir (p : String) : String :=
  joinPath (components p).dropLast

/-! ## Glob pattern engine (spec section 4.2)

Modelled from the spec: the compiled pattern form of the Rust pattern engine
is absent from src/, so the gitignore-glob subset of section 4.2 is embedded
directly: `*` matches within one path segment, `**` matches zero or more
segments, `?` one non-separator character, `[...]` character classes, a
leading `/` anchors at the repository root, and patterns are evaluated
against forward-slash normalized paths. -/

/-- One token of a single-segment glob. -/
inductive GlobToken : Type
  | lit (c : Char)
  | star
  | qmark
  | cls (negated : Bool) (ranges : List (Char × Char))
deriving DecidableEq

/-- One segment of a compiled pattern: either the `**` multi-segment
wildcard or an ordinary single-segment glob. -/
inductive PatSeg : Type
  | dirstar
  | seg (toks : List GlobToken)
deriving DecidableEq

/-- A compiled glob pattern: its segments plus whether it is anchored at the
repository root (leading `/` or an inner `/`). -/
structure Pat : Type where
  anchored : Bool
  segs : List PatSeg
deriving DecidableEq

/-- Parses the items of a character class up to the closing bracket,
returning the ranges and the rest of the input; `none` on an unterminated
class. -/
def parseClassItems : List Char → Option (List (Char × Char) × List Char)
  | [] => none
  | ']' :: rest => some ([], rest)
  | c :: '-' :: d :: rest => (parseClassItems rest).map (fun r => ((c, d) :: r.1, r.2))
  | c :: rest => (parseClassItems rest).map (fun r => ((c, c) :: r.1, r.2))

theorem parseClassItems_length_le :
    ∀ (n : Nat) (cs : List Char), cs.length ≤ n →
      ∀ items rest, parseClassItems cs = some (items, rest) → rest.length ≤ cs.length := by
  intro n
  induction n with
  | zero =>
    intro cs hlen items rest h
    have : cs = [] := by
      cases cs with
      | nil => rfl
      | cons a t => simp at hlen
    subst this
    simp [parseClassItems] at h
  | succ n ih =>
    intro cs hlen items rest h
    rw [parseClassItems.eq_def] at h
    split at h
    · simp at h
    · simp only [Option.some.injEq, Prod.mk.injEq] at h
      obtain ⟨_, hr⟩ := h
      subst hr
      simp
    · rename_i c d rest' hne
      cases hpc : parseClassItems rest' with
      | none => rw [hpc] at h; simp at h
      | some pr =>
        rw [hpc] at h
        simp only [Option.map_some', Option.some.injEq, Prod.mk.injEq] at h
        obtain ⟨_, hr⟩ := h
        subst hr
        have hlen' : rest'.length ≤ n := by simp at hlen; omega
        have := ih rest' hlen' pr.1 pr.2 (by rw [hpc])
        simp only [List.length_cons]
        omega
    · rename_i c rest' hne hsh
      cases hpc : parseClassItems rest' with
      | none => rw [hpc] at h; simp at h
      | some pr =>
        rw [hpc] at h
        simp only [Option.map_some', Option.some.injEq, Prod.mk.injEq] at h
        obtain ⟨_, hr⟩ := h
        subst hr
        have hlen' : rest'.length ≤ n := by simp at hlen; omega
        have := ih rest' hlen' pr.1 pr.2 (by rw [hpc])
        simp only [List.length_cons]
        omega

/-- Strips an optional leading class-negation marker, returning whether one
was present and the remaining characters. -/
def stripClassNeg : List Char → Bool × List Char
  | '!' :: r => (true, r)
  | '^' :: r => (true, r)
  | t => (false, t)

theorem stripClassNeg_length_le (t : List Char) :
    (stripClassNeg t).2.length ≤ t.length := by
  rw [stripClassNeg.eq_def]
  split <;> simp

/-- Parses a single-segment glob into tokens; fails (with a later
`ConfigError`) on an unterminated character class, matching the observed
rejection of the pattern consisting of an unmatched opening bracket. -/
def parseSegToks (cs : List Char) : Option (List GlobToken) :=
  match cs with
  | [] => some []
  | '*' :: t => (parseSegToks t).map (fun r => GlobToken.star :: r)
  | '?' :: t => (parseSegToks t).map (fun r => GlobToken.qmark :: r)
  | '[' :: t =>
    match h : parseClassItems (stripClassNeg t).2 with
    | none => none
    | some (items, rest) =>
      (parseSegToks rest).map (fun r => GlobToken.cls (stripClassNeg t).1 items :: r)
  | c :: t => (parseSegToks t).map (fun r => GlobToken.lit c :: r)
termination_by cs.length
decreasing_by
  · simp
  · simp
  · have h1 := parseClassItems_length_le (stripClassNeg t).2.length (stripClassNeg t).2
      (Nat.le_refl _) items rest h
    have h2 := stripClassNeg_length_le t
    simp only [List.length_cons]
    omega
  · simp

/-- Tests whether a character lies in a character class. -/
def inClass (negated : Bool) (ranges : List (Char × Char)) (c : Char) : Bool :=
  let hit := ranges.any (fun r => decide (r.1 ≤ c) && decide (c ≤ r.2))
  if negated then !hit else hit

/-- Matches a token list against the characters of one path segment:
`star` consumes any number of characters, `qmark` exactly one, a literal or
class exactly the matching character. -/
def matchToks : List GlobToken → List Char → Bool
  | [], [] => true
  | [], _ :: _ => false
  | GlobToken.star :: ts, cs =>
    matchToks ts cs ||
      (match cs with
       | [] => false
       | _ :: cs' => matchToks (GlobToken.star :: ts) cs')
  | GlobToken.qmark :: _, [] => false
  | GlobToken.qmark :: ts, _ :: cs => matchToks ts cs
  | GlobToken.lit _ :: _, [] => false
  | GlobToken.lit a :: ts, c :: cs => decide (a = c) && matchToks ts cs
  | GlobToken.cls _ _ :: _, [] => false
  | GlobToken.cls n rs :: ts, c :: cs => inClass n rs c && matchToks ts cs
termination_by ts cs => ts.length + cs.length
decreasing_by all_goals simp_arith

/-- Matches compiled pattern segments against path components: `dirstar`
consumes zero or more components, an ordinary segment exactly one. -/
def matchSegs : List PatSeg → List (List Char) → Bool
  | [], [] => true
  | [], _ :: _ => false
  | PatSeg.dirstar :: ps, xs =>
    matchSegs ps xs ||
      (match xs with
       | [] => false
       | _ :: xs' => matchSegs (PatSeg.dirstar :: ps) xs')
  | PatSeg.seg _ :: _, [] => false
  | PatSeg.seg toks :: ps, x :: xs => matchToks toks x && matchSegs ps xs
termination_by ps xs => ps.length + xs.length
decreasing_by all_goals simp_arith

/-- Modelled from the spec: compiles one glob pattern (section 4.2).  A
leading `/` or an inner `/` anchors the pattern at the repository root; a
trailing `/` matches the directory and everything below it; a segment that
is exactly `**` becomes the multi-segment wildcard.  Returns `none` when a
segment fails to compile. -/
def compilePat (s : String) : Option Pat :=
  let cs0 := s.data
  let anch0 := match cs0 with
    | '/' :: _ => true
    | _ => false
  let cs := match cs0 with
    | '/' :: t => t
    | _ => cs0
  let trailing := match cs.getLast? with
    | some '/' => true
    | _ => false
  let rawSegs := splitBy (fun c => decide (c = '/')) cs []
  let compileSeg : List Char → Option PatSeg := fun seg =>
    if seg = ['*', '*'] then some PatSeg.dirstar
    else (parseSegToks seg).map PatSeg.seg
  (rawSegs.mapM compileSeg).map (fun segs =>
    { anchored := anch0 || decide (1 < rawSegs.length)
      segs := if trailing then segs ++ [PatSeg.dirstar] else segs })

/-- Modelled from the spec: evaluates one compiled pattern against a
forward-slash normalized path.  An anchored pattern must match the whole
component list from the root; an unanchored pattern may match at any depth,
expressed by prefixing a `**` wildcard. -/
def Pat.matches (pat : Pat) (path : String) : Bool :=
  let comps := splitBy isSepChar (to_posix path).data []
  if pat.anchored then matchSegs pat.segs comps
  else matchSegs (PatSeg.dirstar :: pat.segs) comps

/-! ## PatternMatcher (spec section 4.2) -/

/-- The polarity of one rule of a pattern specification. -/
inductive Polarity : Type
  | inc
  | exc
deriving DecidableEq

/-- Modelled from the spec: a compiled `PatternMatcher` holding the compiled
include patterns, the compiled exclude patterns, and the `negation_first`
evaluation mode (section 4.2). -/
structure PatternMatcher : Type where
  includes : List Pat
  excludes : List Pat
  negation_first : Bool
deriving DecidableEq

/-- The library error taxonomy of spec section 7, as far as the modelled
fragment surfaces it. -/
inductive LeError : Type
  | pathError (msg : String)
  | gitError (msg : String)
  | configError (msg : String)
  | yamlError (msg : String)
  | recoveryError (msg : String)
  | runtimeError (msg : String)
  | shallowCloneError (msg : String)
deriving DecidableEq

/-- Modelled from the spec: `PatternMatcher` construction compiles every
include and exclude pattern; a pattern that fails to compile raises
`ConfigError` (section 4.2). -/
def mkMatcher (includes excludes : List String) (negFirst : Bool) :
    Except LeError PatternMatcher :=
  match includes.mapM compilePat, excludes.mapM compilePat with
  | some incs, some excs => Except.ok ⟨incs, excs, negFirst⟩
  | none, _ => Except.error (LeError.configError "invalid include pattern")
  | _, none => Except.error (LeError.configError "invalid exclude pattern")

/-- Modelled from the spec: a path matches when the last matching rule of
the ordered include-then-exclude rule list is an include, an empty include
list meaning include-all; in `negation_first` mode the excludes are
evaluated first and reject the path before include evaluation, which yields
the same decision for a matcher holding separate include and exclude lists
(section 4.2). -/
def PatternMatcher.matches (m : PatternMatcher) (p : String) : Bool :=
  if m.negation_first then
    if m.excludes.any (fun q => q.matches p) then false
    else m.includes.isEmpty || m.includes.any (fun q => q.matches p)
  else
    (m.includes.isEmpty || m.includes.any (fun q => q.matches p)) &&
      !(m.excludes.any (fun q => q.matches p))

/-- Modelled from the spec: `filter(paths)` keeps, in order, the paths that
match (section 4.2). -/
def PatternMatcher.filterPaths (m : PatternMatcher) : List String → List String
  | [] => []
  | x :: xs =>
    if m.matches x then x :: m.filterPaths xs else m.filterPaths xs

/-- Modelled from the spec: `partition(paths)` splits the paths into the
matching and the non-matching ones, each in input order (section 4.2). -/
def PatternMatcher.partitionPaths (m : PatternMatcher) :
    List String → List String × List String
  | [] => ([], [])
  | x :: xs =>
    let r := m.partitionPaths xs
    if m.matches x then (x :: r.1, r.2) else (r.1, x :: r.2)

/-- The ordered `(polarity, pattern)` rule list of a matcher: the includes
in order, then the excludes in order. -/
def PatternMatcher.rules (m : PatternMatcher) : List (Polarity × Pat) :=
  m.includes.map (fun q => (Polarity.inc, q)) ++
    m.excludes.map (fun q => (Polarity.exc, q))

/-- The last rule of an ordered rule list that matches the path, the
specification's formulation of matcher evaluation (section 4.2), stated
independently of the implementation for comparison. -/
def lastMatchingRule (rs : List (Polarity × Pat)) (p : String) :
    Option (Polarity × Pat) :=
  (rs.filter (fun r => r.2.matches p)).getLast?

/-! ## Shared list helper -/

/-- Deduplication preserving first-appearance order, as the spec requires
for the directory projection and the rebuild sets. -/
def dedupFirst {α : Type} [DecidableEq α] : List α → List α
  | [] => []
  | x :: xs => x :: dedupFirst (xs.filter (fun y => decide (y ≠ x)))
termination_by l => l.length
decreasing_by
  simp only [List.length_cons]
  exact Nat.lt_succ_of_le (List.length_filter_le _ _)

theorem mem_dedupFirst {α : Type} [DecidableEq α] (a : α) :
    ∀ l : List α, a ∈ dedupFirst l ↔ a ∈ l := by
  intro l
  induction l using dedupFirst.induct with
  | case1 => simp [dedupFirst]
  | case2 x xs ih =>
    rw [dedupFirst]
    simp only [List.mem_cons, ih, List.mem_filter, decide_eq_true_eq]
    constructor
    · rintro (h | ⟨h, _⟩) <;> simp [h]
    · rintro (h | h)
      · exact Or.inl h
      · by_cases hx : a = x
        · exact Or.inl hx
        · exact Or.inr ⟨h, hx⟩

/-! ## Change records and the diff engine (spec sections 3 and 4.4) -/

/-- Modelled from the spec: one classified change record; a rename carries
the old path, the new path and the similarity score, and its `path` is the
new path (section 3). -/
inductive ChangeRecord : Type
  | added (path : String)
  | modified (path : String)
  | deleted (path : String)
  | renamed (old_path new_path : String) (similarity : Nat)
  | type_changed (path : String)
deriving DecidableEq

/-- The path of a change record; for a rename, the new path. -/
def ChangeRecord.path : ChangeRecord → String
  | ChangeRecord.added p => p
  | ChangeRecord.modified p => p
  | ChangeRecord.deleted p => p
  | ChangeRecord.renamed _ n _ => n
  | ChangeRecord.type_changed p => p

/-- Whether a record is a rename. -/
def ChangeRecord.isRenamed : ChangeRecord → Bool
  | ChangeRecord.renamed _ _ _ => true
  | _ => false

/-- Applies a path transform to every path of a record, preserving its
kind. -/
def ChangeRecord.mapPath (f : String → String) : ChangeRecord → ChangeRecord
  | ChangeRecord.added p => ChangeRecord.added (f p)
  | ChangeRecord.modified p => ChangeRecord.modified (f p)
  | ChangeRecord.deleted p => ChangeRecord.deleted (f p)
  | ChangeRecord.renamed o n s => ChangeRecord.renamed (f o) (f n) s
  | ChangeRecord.type_changed p => ChangeRecord.type_changed (f p)

/-- Modelled from the spec: the repository surface the engine reads, a
revision resolver (symbolic reference to hex, `none` on an unknown
revision) and the classified diff between two distinct resolved revisions
(RepoHandle and DiffEngine, sections 4.1 and 4.4). -/
structure Repo : Type where
  resolve : String → Option String
  diff : String → String → List ChangeRecord

/-- Modelled from the spec: the diff engine produces an empty change set on
identical endpoints and otherwise the repository's classified diff
(section 4.4). -/
def diffEngine (repo : Repo) (b h : String) : List ChangeRecord :=
  if b = h then [] else repo.diff b h

/-! ## Workflow correlation (spec sections 4.6 and 4.7) -/

/-- Modelled from the spec: a run or job conclusion (section 3). -/
inductive Conclusion : Type
  | success
  | failure
  | cancelled
  | timed_out
  | null
deriving DecidableEq

/-- Modelled from the spec: a run or job status (section 3). -/
inductive JobStatus : Type
  | queued
  | in_progress
  | completed
deriving DecidableEq

/-- Modelled from the spec: a CI job with its outcome and its optional
file-pattern scope; an absent scope implicates all changed files
(sections 3 and 4.7). -/
structure WorkflowJob : Type where
  id : Nat
  run_id : Nat
  name : String
  status : JobStatus
  conclusion : Conclusion
  scope : Option PatternMatcher

/-- The kind of a rebuild reason (section 3). -/
inductive RebuildKind : Type
  | failed_job
  | new_failure
  | inherited
deriving DecidableEq

/-- Modelled from the spec: why a file must be rebuilt (section 3). -/
structure RebuildReason : Type where
  file : String
  kind : RebuildKind
  failed_run_id : Nat
  job_name : String
deriving DecidableEq

/-- Modelled from the spec: a categorized diagnostic (section 3). -/
structure Diagnostic : Type where
  category : String
  message : String
deriving DecidableEq

/-- The workflow fields of a result: the rebuild and skip sets, the rebuild
reasons, and the deduplicated failed and successful job names. -/
structure CorrelationResult : Type where
  files_to_rebuild : List String
  files_to_skip : List String
  rebuild_reasons : List RebuildReason
  failed_jobs : List String
  successful_jobs : List String
deriving DecidableEq

/-- The empty workflow fields, used when workflow tracking is off or the
subsystem cannot operate. -/
def emptyCorrelation : CorrelationResult :=
  ⟨[], [], [], [], []⟩

/-- A conclusion that implies a rebuild: failure, cancelled or timed out
(section 4.7, step 2). -/
def isFailedConclusion : Conclusion → Bool
  | Conclusion.failure => true
  | Conclusion.cancelled => true
  | Conclusion.timed_out => true
  | _ => false

/-- Modelled from the spec: the files a job implicates, the changed paths
falling in its file-pattern scope, all of them when no scope is attached
(section 4.7, step 1). -/
def implicatedFiles (changed : List String) (j : WorkflowJob) : List String :=
  changed.filter (fun p =>
    match j.scope with
    | none => true
    | some m => m.matches p)

/-- Modelled from the spec: the workflow correlator (section 4.7).  The
failed-job pass fills the rebuild set with a reason per file; the success
pass, only under `skip_successful_files`, fills the skip set from the
successful jobs; a file already due for rebuild is kept out of the skip set
(steps 3 and 4, the disjointness enforcement); job name lists are
deduplicated. -/
def correlate (changed : List String) (jobs : List WorkflowJob)
    (skipSuccessful : Bool) : CorrelationResult :=
  let completed := jobs.filter (fun j => decide (j.status = JobStatus.completed))
  let failed := completed.filter (fun j => isFailedConclusion j.conclusion)
  let succ := completed.filter (fun j => decide (j.conclusion = Conclusion.success))
  let rebuild := dedupFirst (failed.flatMap (implicatedFiles changed))
  let reasons := failed.flatMap (fun j =>
    (implicatedFiles changed j).map (fun f =>
      RebuildReason.mk f RebuildKind.failed_job j.run_id j.name))
  let skipRaw := if skipSuccessful then dedupFirst (succ.flatMap (implicatedFiles changed)) else []
  let skip := skipRaw.filter (fun f => decide (f ∉ rebuild))
  ⟨rebuild, skip, reasons, dedupFirst (failed.map WorkflowJob.name),
    dedupFirst (succ.map WorkflowJob.name)⟩

/-- Modelled from the spec: the ways the workflow subsystem can fail to
operate while change detection still succeeds (sections 4.6 and 7). -/
inductive WorkflowFailure : Type
  | token_missing
  | transport_failure
  | workflow_timeout
deriving DecidableEq

/-- The diagnostic category of a workflow-subsystem failure (section 3
lists `token_missing` and `workflow_timeout` among the categories). -/
def WorkflowFailure.category : WorkflowFailure → String
  | WorkflowFailure.token_missing => "token_missing"
  | WorkflowFailure.transport_failure => "transport_failure"
  | WorkflowFailure.workflow_timeout => "workflow_timeout"

/-- Modelled from the spec: what the workflow client hands the correlator,
either the jobs of the runs over the revision range or the categorized
reason the subsystem cannot operate (sections 4.6 and 7). -/
def WorkflowData : Type :=
  Except WorkflowFailure (List WorkflowJob)

/-! ## Config (spec section 6) -/

/-- Modelled from the spec: the explicit Config record with the option
enumeration of section 6; the YAML pattern groups are carried post-parse as
an association list of group name to pattern texts, since the engine
consumes already-read YAML text. -/
structure Config : Type where
  base : String := "HEAD"
  head : String := "HEAD"
  files : List String := []
  files_ignore : List String := []
  files_yaml : Option (List (String × List String)) := none
  negation_first : Bool := false
  json : Bool := false
  dir_names : Bool := false
  use_posix_path_separator : Bool := false
  output_renamed_as_deleted_added : Bool := false
  skip_same_sha : Bool := false
  token : Option String := none
  track_workflow_failures : Bool := false
  skip_successful_files : Bool := false
  wait_for_active_workflows : Bool := false
  workflow_max_wait_seconds : Nat := 0
  workflow_name_filter : Option String := none

/-- The option names of the spec's section 6 table, written down exactly as
the table enumerates them, for comparison with the accepted keyword set. -/
def spec6ConfigKeys : List String :=
  ["base", "head", "files", "files_ignore", "files_yaml", "negation_first",
   "json", "dir_names", "use_posix_path_separator",
   "output_renamed_as_deleted_added", "skip_same_sha", "token",
   "track_workflow_failures", "skip_successful_files",
   "wait_for_active_workflows", "workflow_max_wait_seconds",
   "workflow_name_filter"]

/-- Modelled from the spec and the repository's tests: the keyword
arguments Config construction accepts.  The tests construct Config with the
revision keyword aliases `base_sha` and `sha` throughout
(src/python/tests/test_real_repo.py, test_workflow_tracking.py,
test_detector_integration.py) while the basic tests and examples use `base`
and `head`, so the accepted set is the section 6 enumeration together with
those two aliases. -/
def acceptedConfigKeys : List String :=
  spec6ConfigKeys ++ ["base_sha", "sha"]

/-- Modelled from the spec: Config construction checks its keyword
arguments and rejects an unknown key with `ConfigError` (design note,
section 9). -/
def configConstruct (kwargs : List String) : Except LeError Unit :=
  match kwargs.find? (fun k => decide (k ∉ acceptedConfigKeys)) with
  | some k => Except.error (LeError.configError ("unknown Config option " ++ k))
  | none => Except.ok ()

/-! ## Result projection and assembly (spec sections 4.8 and 4.11) -/

/-- Modelled from the spec: the immutable `ChangedFiles` result, its
per-kind lists and counts, the convenience booleans, the rename mapping,
the hit pattern-group keys, the workflow fields and the diagnostics
(section 3). -/
structure ChangedFiles : Type where
  all_changed_files : List String
  added_files : List String
  modified_files : List String
  deleted_files : List String
  renamed_files : List (String × String)
  type_changed_files : List String
  all_changed_files_count : Nat
  added_files_count : Nat
  modified_files_count : Nat
  deleted_files_count : Nat
  renamed_files_count : Nat
  type_changed_files_count : Nat
  any_changed : Bool
  any_added : Bool
  any_modified : Bool
  any_deleted : Bool
  renamed_files_mapping : List (String × String)
  changed_keys : List String
  files_to_rebuild : List String
  files_to_skip : List String
  rebuild_reasons : List RebuildReason
  failed_jobs : List String
  successful_jobs : List String
  diagnostics : List Diagnostic
deriving DecidableEq

/-- Modelled from the spec: rename splitting; under
`output_renamed_as_deleted_added` every rename becomes a deletion of the
old path plus an addition of the new path and the rename disappears
(section 4.8). -/
def splitRenames (cfg : Config) (records : List ChangeRecord) : List ChangeRecord :=
  if cfg.output_renamed_as_deleted_added then
    records.flatMap (fun r =>
      match r with
      | ChangeRecord.renamed o n _ => [ChangeRecord.deleted o, ChangeRecord.added n]
      | r => [r])
  else records

/-- Modelled from the spec: the directory projection; under `dir_names`
every path is replaced by its parent directory and the records are
deduplicated preserving first appearance (section 4.8). -/
def applyDirNames (cfg : Config) (records : List ChangeRecord) : List ChangeRecord :=
  if cfg.dir_names then dedupFirst (records.map (ChangeRecord.mapPath parentDir))
  else records

/-- Modelled from the spec: separator projection; under
`use_posix_path_separator` every path is converted with `to_posix`
(section 4.8). -/
def applyPosix (cfg : Config) (records : List ChangeRecord) : List ChangeRecord :=
  if cfg.use_posix_path_separator then records.map (ChangeRecord.mapPath to_posix)
  else records

/-- Modelled from the spec: the projector applies the Config transforms to
the filtered change set: rename splitting on the records, then the
directory projection, then separator conversion (section 4.8). -/
def project (cfg : Config) (records : List ChangeRecord) : List ChangeRecord :=
  applyPosix cfg (applyDirNames cfg (splitRenames cfg records))

/-- Modelled from the spec: compiles one named pattern group; a leading `!`
on an item denotes exclusion (sections 4.3 and 6). -/
def mkGroupMatcher (negFirst : Bool) (pats : List String) :
    Except LeError PatternMatcher :=
  let incs := pats.filter (fun s => !s.startsWith "!")
  let excs := (pats.filter (fun s => s.startsWith "!")).map (fun s => s.drop 1)
  mkMatcher incs excs negFirst

/-- Modelled from the spec: compiles the YAML pattern groups of the Config
into named matchers; a single invalid pattern fails the call with
`ConfigError` (section 4.3). -/
def compileGroups (cfg : Config) : Except LeError (List (String × PatternMatcher)) :=
  match cfg.files_yaml with
  | none => Except.ok []
  | some gs => gs.mapM (fun g =>
      (mkGroupMatcher cfg.negation_first g.2).map (fun m => (g.1, m)))

/-- Modelled from the spec: a group is hit when at least one record path
matches its matcher; hit group names populate `changed_keys`
(section 4.3). -/
def changedKeys (groups : List (String × PatternMatcher))
    (records : List ChangeRecord) : List String :=
  (groups.filter (fun g => records.any (fun r => g.2.matches r.path))).map
    (fun g => g.1)

/-- Extracts the added paths of a record list. -/
def addedOf (records : List ChangeRecord) : List String :=
  records.filterMap (fun r =>
    match r with
    | ChangeRecord.added p => some p
    | _ => none)

/-- Extracts the modified paths of a record list. -/
def modifiedOf (records : List ChangeRecord) : List String :=
  records.filterMap (fun r =>
    match r with
    | ChangeRecord.modified p => some p
    | _ => none)

/-- Extracts the deleted paths of a record list. -/
def deletedOf (records : List ChangeRecord) : List String :=
  records.filterMap (fun r =>
    match r with
    | ChangeRecord.deleted p => some p
    | _ => none)

/-- Extracts the rename pairs of a record list. -/
def renamedOf (records : List ChangeRecord) : List (String × String) :=
  records.filterMap (fun r =>
    match r with
    | ChangeRecord.renamed o n _ => some (o, n)
    | _ => none)

/-- Extracts the type-changed paths of a record list. -/
def typeChangedOf (records : List ChangeRecord) : List String :=
  records.filterMap (fun r =>
    match r with
    | ChangeRecord.type_changed p => some p
    | _ => none)

/-- Modelled from the spec: assembles the immutable `ChangedFiles` from the
projected records, the workflow fields, the hit group keys and the
diagnostics; every count is the length of its list, `all_changed_files`
is the deduplicated union of the per-kind paths, and the booleans report
non-emptiness (sections 3 and 4.11). -/
def assembleResult (records : List ChangeRecord) (corr : CorrelationResult)
    (keys : List String) (diags : List Diagnostic) : ChangedFiles :=
  let added := addedOf records
  let modified := modifiedOf records
  let deleted := deletedOf records
  let renamed := renamedOf records
  let typeChanged := typeChangedOf records
  let allChanged := dedupFirst (records.map ChangeRecord.path)
  { all_changed_files := allChanged
    added_files := added
    modified_files := modified
    deleted_files := deleted
    renamed_files := renamed
    type_changed_files := typeChanged
    all_changed_files_count := allChanged.length
    added_files_count := added.length
    modified_files_count := modified.length
    deleted_files_count := deleted.length
    renamed_files_count := renamed.length
    type_changed_files_count := typeChanged.length
    any_changed := !allChanged.isEmpty
    any_added := !added.isEmpty
    any_modified := !modified.isEmpty
    any_deleted := !deleted.isEmpty
    renamed_files_mapping := renamed
    changed_keys := keys
    files_to_rebuild := corr.files_to_rebuild
    files_to_skip := corr.files_to_skip
    rebuild_reasons := corr.rebuild_reasons
    failed_jobs := corr.failed_jobs
    successful_jobs := corr.successful_jobs
    diagnostics := diags }

/-- Modelled from the spec: the workflow fields of one call; when tracking
is on they come from the correlator over the client's jobs, and a
subsystem failure downgrades to empty fields (sections 4.11 and 7). -/
def runWorkflowCorr (cfg : Config) (wf : WorkflowData)
    (changed : List String) : CorrelationResult :=
  if cfg.track_workflow_failures then
    match wf with
    | Except.ok jobs => correlate changed jobs cfg.skip_successful_files
    | Except.error _ => emptyCorrelation
  else emptyCorrelation

/-- Modelled from the spec: the diagnostics the workflow step contributes;
a subsystem failure yields one categorized diagnostic (section 7). -/
def runWorkflowDiags (cfg : Config) (wf : WorkflowData) : List Diagnostic :=
  if cfg.track_workflow_failures then
    match wf with
    | Except.ok _ => []
    | Except.error e => [⟨e.category, "workflow subsystem unavailable"⟩]
  else []

/-- The raw change set after pattern filtering: the classified diff
restricted to the records whose path the compiled matcher accepts
(section 4.11, step 3). -/
def filteredRecords (repo : Repo) (cfg : Config) (b h : String)
    (m : PatternMatcher) : List ChangeRecord :=
  (diffEngine repo b h).filter (fun r => m.matches r.path)

/-- The result of one successful non-short-circuited call: the projected
filtered records, the workflow fields over the filtered paths, the hit
group keys and the workflow diagnostics, assembled into the immutable
result. -/
def resultFor (repo : Repo) (cfg : Config) (wf : WorkflowData) (b h : String)
    (m : PatternMatcher) (groups : List (String × PatternMatcher)) : ChangedFiles :=
  assembleResult (project cfg (filteredRecords repo cfg b h m))
    (runWorkflowCorr cfg wf ((filteredRecords repo cfg b h m).map ChangeRecord.path))
    (changedKeys groups (project cfg (filteredRecords repo cfg b h m)))
    (runWorkflowDiags cfg wf)

/-- Modelled from the spec: the orchestrator `get_changed_files`
(section 4.11).  It resolves both endpoints, returns the empty result plus
a `skipped_same_sha` diagnostic when they are equal and `skip_same_sha` is
set, diffs, compiles and applies the include and exclude patterns, runs the
workflow correlator when requested, projects, and assembles the immutable
result.  The client's workflow answer is passed in as `wf`, standing for
the network interaction. -/
def getChangedFiles (repo : Repo) (cfg : Config) (wf : WorkflowData) :
    Except LeError ChangedFiles :=
  match repo.resolve cfg.base, repo.resolve cfg.head with
  | some b, some h =>
    if b = h ∧ cfg.skip_same_sha = true then
      Except.ok (assembleResult [] emptyCorrelation []
        [⟨"skipped_same_sha", "base and head are the same revision"⟩])
    else
      match mkMatcher cfg.files cfg.files_ignore cfg.negation_first,
          compileGroups cfg with
      | Except.ok m, Except.ok groups =>
        Except.ok (resultFor repo cfg wf b h m groups)
      | Except.error e, _ => Except.error e
      | _, Except.error e => Except.error e
  | none, _ => Except.error (LeError.gitError "cannot resolve base revision")
  | _, none => Except.error (LeError.gitError "cannot resolve head revision")

/-! ## Emitter: JSON string escaping (spec section 4.9) -/

/-- The lowercase hexadecimal digit of a value below sixteen. -/
def hexDigitChar (n : Nat) : Char :=
  if n < 10 then Char.ofNat (48 + n) else Char.ofNat (87 + n)

/-- The value of a hexadecimal digit character, `none` for any other
character. -/
def hexVal (c : Char) : Option Nat :=
  if 48 ≤ c.toNat ∧ c.toNat ≤ 57 then some (c.toNat - 48)
  else if 97 ≤ c.toNat ∧ c.toNat ≤ 102 then some (c.toNat - 87)
  else if 65 ≤ c.toNat ∧ c.toNat ≤ 70 then some (c.toNat - 55)
  else none

/-- Modelled from the spec: how `escape_json` treats one character; the
double quote, the backslash, newline, carriage return and tab get their
two-character escapes, any other control character gets a `\u00XX` escape
per the standard JSON string rules, and everything else passes through
unchanged (section 4.9). -/
def escapeJsonChar (c : Char) : List Char :=
  if c = '"' then ['\\', '"']
  else if c = '\\' then ['\\', '\\']
  else if c = '\n' then ['\\', 'n']
  else if c = '\r' then ['\\', 'r']
  else if c = '\t' then ['\\', 't']
  else if c.toNat < 32 then
    ['\\', 'u', '0', '0', hexDigitChar (c.toNat / 16), hexDigitChar (c.toNat % 16)]
  else [c]

/-- Modelled from the spec: `escape_json(s)` escapes each character per the
standard JSON string rules (section 4.9). -/
def escape_json (s : String) : String :=
  String.mk (s.data.flatMap escapeJsonChar)

/-- The single-character escapes a conformant JSON parser accepts after a
backslash (the solidus and the two control escapes the emitter never
produces included). -/
def unescapeChar (e : Char) : Option Char :=
  if e = '"' then some '"'
  else if e = '\\' then some '\\'
  else if e = '/' then some '/'
  else if e = 'n' then some '\n'
  else if e = 'r' then some '\r'
  else if e = 't' then some '\t'
  else if e = 'b' then some (Char.ofNat 8)
  else if e = 'f' then some (Char.ofNat 12)
  else none

/-- A conformant JSON string-body parser over the characters between the
quotes: a backslash starts an escape (`\uXXXX` outside the surrogate range
decodes to the scalar value), a raw quote or raw control character is
rejected, anything else passes through.  Written independently of the
escaper so that the round-trip theorem compares the two. -/
def parseJsonStringBody (l : List Char) : Option (List Char) :=
  match l with
  | [] => some []
  | c :: cs =>
    if c = '\\' then
      match cs with
      | 'u' :: h1 :: h2 :: h3 :: h4 :: cs' =>
        match hexVal h1, hexVal h2, hexVal h3, hexVal h4 with
        | some a, some b, some v3, some v4 =>
          let code := ((a * 16 + b) * 16 + v3) * 16 + v4
          if code < 55296 then
            (parseJsonStringBody cs').map (fun r => Char.ofNat code :: r)
          else none
        | _, _, _, _ => none
      | e :: cs' =>
        match unescapeChar e with
        | some u => (parseJsonStringBody cs').map (fun r => u :: r)
        | none => none
      | [] => none
    else if c = '"' then none
    else if c.toNat < 32 then none
    else (parseJsonStringBody cs).map (fun r => c :: r)

/-- A conformant JSON string parser: an opening quote, a body, a closing
quote, end of input. -/
def parseJsonString (l : List Char) : Option (List Char) :=
  match l with
  | '"' :: rest =>
    if rest.getLast? = some '"' then parseJsonStringBody rest.dropLast else none
  | _ => none

/-! ## Theorems: pattern matcher evaluation (sections 4.2, spec property P8) -/

/-- The implementation's decision is include-hit-and-no-exclude-hit with the
empty-include special case, in both evaluation modes. -/
theorem matches_eq_canonical (m : PatternMatcher) (p : String) :
    m.matches p =
      ((m.includes.isEmpty || m.includes.any (fun q => q.matches p)) &&
        !(m.excludes.any (fun q => q.matches p))) := by
  unfold PatternMatcher.matches
  by_cases hnf : m.negation_first = true
  · by_cases hex : m.excludes.any (fun q => q.matches p) = true <;>
      simp [hnf, hex]
  · simp [hnf]

/-- Filtering the rule list splits into the filtered includes followed by
the filtered excludes, each tagged with its polarity. -/
theorem rules_filter_split (m : PatternMatcher) (p : String) :
    m.rules.filter (fun r => r.2.matches p) =
      (m.includes.filter (fun q => q.matches p)).map (fun q => (Polarity.inc, q)) ++
        (m.excludes.filter (fun q => q.matches p)).map (fun q => (Polarity.exc, q)) := by
  unfold PatternMatcher.rules
  rw [List.filter_append, List.filter_map, List.filter_map]
  rfl

/-- A nonempty list has a last element. -/
theorem exists_getLast?_of_ne_nil {α : Type} {l : List α} (h : l ≠ []) :
    ∃ x, l.getLast? = some x := by
  cases hgl : l.getLast? with
  | none => exact absurd (List.getLast?_eq_none_iff.mp hgl) h
  | some x => exact ⟨x, rfl⟩

/-- A pattern list with a matching member filters to a nonempty list. -/
theorem filter_matches_ne_nil {l : List Pat} {p : String}
    (h : l.any (fun q => q.matches p) = true) :
    l.filter (fun q => q.matches p) ≠ [] := by
  obtain ⟨q0, hq0, hq0m⟩ := List.any_eq_true.mp h
  intro hnil
  have := List.filter_eq_nil_iff.mp hnil q0 hq0
  simp [hq0m] at this

/-- C5.  For every compiled PatternMatcher and path, `matches` is true
exactly when the last matching rule of the ordered rule list is an include;
an empty include list includes everything not removed by an exclude, and an
empty exclude list removes nothing, leaving the include-only decision. -/
theorem matcher_last_rule_evaluation (m : PatternMatcher) (p : String) :
    (m.matches p = true ↔
      (∃ q, lastMatchingRule m.rules p = some (Polarity.inc, q)) ∨
      (lastMatchingRule m.rules p = none ∧ m.includes = [])) ∧
    (m.includes = [] →
      (m.matches p = true ↔ m.excludes.any (fun q => q.matches p) = false)) ∧
    (m.excludes = [] →
      (m.matches p = true ↔
        (m.includes = [] ∨ m.includes.any (fun q => q.matches p) = true))) := by
  refine ⟨?_, ?_, ?_⟩
  · unfold lastMatchingRule
    rw [rules_filter_split]
    by_cases hex : m.excludes.any (fun q => q.matches p) = true
    · obtain ⟨x, hx⟩ := exists_getLast?_of_ne_nil (filter_matches_ne_nil hex)
      rw [List.getLast?_append, List.getLast?_map, hx]
      rw [matches_eq_canonical]
      simp [hex]
    · have hnil : m.excludes.filter (fun q => q.matches p) = [] := by
        rw [List.filter_eq_nil_iff]
        intro q hq
        intro hqm
        exact hex (List.any_eq_true.mpr ⟨q, hq, hqm⟩)
      rw [hnil]
      simp only [List.map_nil, List.append_nil]
      by_cases hinc : m.includes.any (fun q => q.matches p) = true
      · obtain ⟨x, hx⟩ := exists_getLast?_of_ne_nil (filter_matches_ne_nil hinc)
        rw [List.getLast?_map, hx]
        rw [matches_eq_canonical]
        simp [hex, hinc]
      · have hnili : m.includes.filter (fun q => q.matches p) = [] := by
          rw [List.filter_eq_nil_iff]
          intro q hq hqm
          exact hinc (List.any_eq_true.mpr ⟨q, hq, hqm⟩)
        rw [hnili]
        rw [matches_eq_canonical]
        simp only [List.map_nil, List.getLast?_nil, Option.map_none']
        constructor
        · intro hm
          right
          refine ⟨trivial, ?_⟩
          rw [Bool.and_eq_true] at hm
          rcases hm with ⟨hm1, _⟩
          rw [Bool.or_eq_true] at hm1
          rcases hm1 with hm1 | hm1
          · exact List.isEmpty_iff.mp hm1
          · exact absurd hm1 hinc
        · rintro (⟨q, hq⟩ | ⟨_, hemp⟩)
          · exact absurd hq (by simp)
          · simp [hemp, hex]
  · intro hemp
    rw [matches_eq_canonical, hemp]
    simp
  · intro hemp
    rw [matches_eq_canonical, hemp]
    simp only [List.any_nil, Bool.not_false, Bool.and_true, Bool.or_eq_true,
      List.isEmpty_iff]

/-- The compiled form of the test suite's include pattern `**/*.py`: any
depth of directories, then a segment ending in the `.py` extension. -/
def patPy : Pat :=
  ⟨true, [PatSeg.dirstar,
    PatSeg.seg [GlobToken.star, GlobToken.lit '.', GlobToken.lit 'p', GlobToken.lit 'y']]⟩

/-- A concrete matcher holding the compiled `**/*.py` include pattern, used
to instantiate the matcher theorems. -/
def matcherPy : PatternMatcher :=
  ⟨[patPy], [], false⟩

/-- Witness for C5: the evaluation characterization applied to the compiled
`**/*.py` matcher, whose exclude list is empty, at a concrete path. -/
theorem matcher_last_rule_evaluation_witness :
    matcherPy.matches "src/main.py" = true ↔
      (matcherPy.includes = [] ∨
        matcherPy.includes.any (fun q => q.matches "src/main.py") = true) :=
  (matcher_last_rule_evaluation matcherPy "src/main.py").2.2 rfl

/-- The recursive filter equals the library filter over the decision. -/
theorem filterPaths_eq_filter (m : PatternMatcher) (xs : List String) :
    m.filterPaths xs = xs.filter (fun p => m.matches p) := by
  induction xs with
  | nil => rfl
  | cons x t ih =>
    unfold PatternMatcher.filterPaths
    by_cases hx : m.matches x = true <;> simp [List.filter, hx, ih]

/-- The first component of the recursive partition is the filter of the
matching paths. -/
theorem partitionPaths_fst (m : PatternMatcher) (xs : List String) :
    (m.partitionPaths xs).1 = xs.filter (fun p => m.matches p) := by
  induction xs with
  | nil => rfl
  | cons x t ih =>
    unfold PatternMatcher.partitionPaths
    by_cases hx : m.matches x = true <;> simp [List.filter, hx, ih]

/-- The second component of the recursive partition is the filter of the
non-matching paths. -/
theorem partitionPaths_snd (m : PatternMatcher) (xs : List String) :
    (m.partitionPaths xs).2 = xs.filter (fun p => !(m.matches p)) := by
  induction xs with
  | nil => rfl
  | cons x t ih =>
    unfold PatternMatcher.partitionPaths
    by_cases hx : m.matches x = true <;> simp [List.filter, hx, ih]

/-- C6.  `partition(xs)` yields disjoint matched and unmatched lists whose
multiset union is the input, each preserving the input's relative order
(stated as sublists of the input). -/
theorem partition_disjoint_union_ordered (m : PatternMatcher) (xs : List String) :
    (∀ p, p ∈ (m.partitionPaths xs).1 → p ∉ (m.partitionPaths xs).2) ∧
    List.Perm ((m.partitionPaths xs).1 ++ (m.partitionPaths xs).2) xs ∧
    (m.partitionPaths xs).1.Sublist xs ∧ (m.partitionPaths xs).2.Sublist xs := by
  rw [partitionPaths_fst, partitionPaths_snd]
  refine ⟨?_, List.filter_append_perm _ xs, List.filter_sublist xs, List.filter_sublist xs⟩
  intro p hp hp2
  have h1 := (List.mem_filter.mp hp).2
  have h2 := (List.mem_filter.mp hp2).2
  simp [h1] at h2

/-- Witness for C6: the partition facts at a concrete matcher and path
list. -/
theorem partition_disjoint_union_ordered_witness :
    List.Perm ((matcherPy.partitionPaths ["a.py", "b.rs", "c.py"]).1 ++
      (matcherPy.partitionPaths ["a.py", "b.rs", "c.py"]).2) ["a.py", "b.rs", "c.py"] :=
  (partition_disjoint_union_ordered matcherPy ["a.py", "b.rs", "c.py"]).2.1

/-- C10.  `filter` is the order-preserving sublist of matching paths, and
`partition` is consistent with it: its first component is exactly `filter`
and its second the non-matching remainder. -/
theorem filter_partition_matches_consistent (m : PatternMatcher) (xs : List String) :
    m.filterPaths xs = xs.filter (fun p => m.matches p) ∧
    (m.partitionPaths xs).1 = m.filterPaths xs ∧
    (m.partitionPaths xs).2 = xs.filter (fun p => !(m.matches p)) := by
  refine ⟨filterPaths_eq_filter m xs, ?_, partitionPaths_snd m xs⟩
  rw [partitionPaths_fst, filterPaths_eq_filter]

/-- Witness for C10: filter and partition agree on a concrete input. -/
theorem filter_partition_matches_consistent_witness :
    (matcherPy.partitionPaths ["a.py", "b.rs", "c.py"]).1 =
      matcherPy.filterPaths ["a.py", "b.rs", "c.py"] :=
  (filter_partition_matches_consistent matcherPy ["a.py", "b.rs", "c.py"]).2.1

/-! ## Theorems: JSON escaping round-trip (section 4.9, spec property P6) -/

/-- The hexadecimal digit emitter and reader are inverse below sixteen. -/
theorem hexVal_hexDigitChar : ∀ k, k < 16 → hexVal (hexDigitChar k) = some k := by
  decide

/-- Parsing one escaped character at the front of the input passes it
through and continues. -/
theorem parse_escapeJsonChar_append (c : Char) (rest : List Char) :
    parseJsonStringBody (escapeJsonChar c ++ rest) =
      (parseJsonStringBody rest).map (fun r => c :: r) := by
  unfold escapeJsonChar
  by_cases h1 : c = '"'
  · subst h1
    simp [parseJsonStringBody, unescapeChar]
  · rw [if_neg h1]
    by_cases h2 : c = '\\'
    · subst h2
      simp [parseJsonStringBody, unescapeChar]
    · rw [if_neg h2]
      by_cases h3 : c = '\n'
      · subst h3
        simp [parseJsonStringBody, unescapeChar]
      · rw [if_neg h3]
        by_cases h4 : c = '\r'
        · subst h4
          simp [parseJsonStringBody, unescapeChar]
        · rw [if_neg h4]
          by_cases h5 : c = '\t'
          · subst h5
            simp [parseJsonStringBody, unescapeChar]
          · rw [if_neg h5]
            by_cases h6 : c.toNat < 32
            · rw [if_pos h6]
              have hd1 : hexVal (hexDigitChar (c.toNat / 16)) = some (c.toNat / 16) :=
                hexVal_hexDigitChar _ (by omega)
              have hd2 : hexVal (hexDigitChar (c.toNat % 16)) = some (c.toNat % 16) :=
                hexVal_hexDigitChar _ (by omega)
              have hv0 : hexVal '0' = some 0 := by decide
              rw [List.cons_append, List.cons_append, List.cons_append,
                List.cons_append, List.cons_append, List.cons_append]
              rw [parseJsonStringBody.eq_def]
              simp only [if_pos rfl, hv0, hd1, hd2]
              have hcode : ((0 * 16 + 0) * 16 + c.toNat / 16) * 16 + c.toNat % 16 = c.toNat := by
                omega
              rw [hcode]
              have hlt2 : c.toNat < 55296 := by omega
              simp only [if_pos hlt2, Char.ofNat_toNat]
              simp
            · rw [if_neg h6]
              rw [List.cons_append, List.nil_append]
              rw [parseJsonStringBody.eq_def]
              simp [h1, h2, h6]

/-- The body round-trip: parsing the escape of any character list yields it
back. -/
theorem parse_escape_body (cs : List Char) :
    parseJsonStringBody (cs.flatMap escapeJsonChar) = some cs := by
  induction cs with
  | nil => rfl
  | cons c t ih =>
    rw [List.flatMap_cons, parse_escapeJsonChar_append, ih]
    rfl

/-- C7.  Wrapping `escape_json(s)` in double quotes and running a
conformant JSON string parser yields `s` again; outside the five named
characters no non-control character is altered, and each of the five gets
its standard two-character escape. -/
theorem escape_json_roundtrip (s : String) :
    parseJsonString ('"' :: (escape_json s).data ++ ['"']) = some s.data ∧
    (∀ c : Char, c ≠ '"' → c ≠ '\\' → c ≠ '\n' → c ≠ '\r' → c ≠ '\t' →
      32 ≤ c.toNat → escapeJsonChar c = [c]) ∧
    escapeJsonChar '"' = ['\\', '"'] ∧
    escapeJsonChar '\\' = ['\\', '\\'] ∧
    escapeJsonChar '\n' = ['\\', 'n'] ∧
    escapeJsonChar '\r' = ['\\', 'r'] ∧
    escapeJsonChar '\t' = ['\\', 't'] := by
  refine ⟨?_, ?_, rfl, rfl, rfl, rfl, rfl⟩
  · have hgl : ((escape_json s).data ++ ['"']).getLast? = some '"' := by
      rw [List.getLast?_append]
      rfl
    have hdl : ((escape_json s).data ++ ['"']).dropLast = (escape_json s).data := by
      rw [List.dropLast_concat]
    show (if ((escape_json s).data ++ ['"']).getLast? = some '"'
        then parseJsonStringBody ((escape_json s).data ++ ['"']).dropLast
        else none) = some s.data
    rw [if_pos hgl, hdl]
    exact parse_escape_body s.data
  · intro c hc1 hc2 hc3 hc4 hc5 hc6
    unfold escapeJsonChar
    rw [if_neg hc1, if_neg hc2, if_neg hc3, if_neg hc4, if_neg hc5,
      if_neg (by omega)]

/-- Witness for C7: the round-trip at a concrete string containing a quote,
a backslash and a newline, and the pass-through of a plain letter. -/
theorem escape_json_roundtrip_witness :
    parseJsonString ('"' :: (escape_json "a\"b\\c\nd").data ++ ['"']) =
      some "a\"b\\c\nd".data ∧
    escapeJsonChar 'x' = ['x'] :=
  ⟨(escape_json_roundtrip "a\"b\\c\nd").1,
    (escape_json_roundtrip "x").2.1 'x' (by decide) (by decide) (by decide)
      (by decide) (by decide) (by decide)⟩

/-! ## Theorems: orchestrator shape and workflow correlation (sections 4.7 and 4.11) -/


/-- A file in the skip set was filtered against the rebuild set, so it is
not due for rebuild. -/
theorem correlate_skip_not_rebuild (changed : List String) (jobs : List WorkflowJob)
    (b : Bool) (f : String) :
    f ∈ (correlate changed jobs b).files_to_skip →
      f ∉ (correlate changed jobs b).files_to_rebuild := by
  simp only [correlate]
  intro hf
  have := (List.mem_filter.mp hf).2
  rw [decide_eq_true_eq] at this
  exact this

/-- Every file a completed failed job implicates lands in the rebuild
set. -/
theorem correlate_failed_mem_rebuild (changed : List String) (jobs : List WorkflowJob)
    (b : Bool) (f : String) (jf : WorkflowJob) (hjf : jf ∈ jobs)
    (hst : jf.status = JobStatus.completed)
    (hc : isFailedConclusion jf.conclusion = true)
    (hf : f ∈ implicatedFiles changed jf) :
    f ∈ (correlate changed jobs b).files_to_rebuild := by
  simp only [correlate]
  rw [mem_dedupFirst, List.mem_flatMap]
  refine ⟨jf, ?_, hf⟩
  rw [List.mem_filter]
  refine ⟨?_, hc⟩
  rw [List.mem_filter]
  exact ⟨hjf, by simp [hst]⟩

/-- The workflow fields of a call are either empty or the correlator's
output. -/
theorem runWorkflowCorr_shape (cfg : Config) (wf : WorkflowData) (changed : List String) :
    runWorkflowCorr cfg wf changed = emptyCorrelation ∨
      ∃ jobs, runWorkflowCorr cfg wf changed = correlate changed jobs cfg.skip_successful_files := by
  unfold runWorkflowCorr
  by_cases ht : cfg.track_workflow_failures = true
  · cases wf with
    | ok jobs => exact Or.inr ⟨jobs, by simp [ht]⟩
    | error e => exact Or.inl (by simp [ht])
  · exact Or.inl (by simp [ht])

/-- Every successful call assembles its result with `assembleResult`, with
workflow fields that are empty or come from the correlator, over records
that are empty or projected. -/
theorem getChangedFiles_ok_shape (repo : Repo) (cfg : Config) (wf : WorkflowData)
    (res : ChangedFiles) (h : getChangedFiles repo cfg wf = Except.ok res) :
    ∃ records corr keys diags,
      res = assembleResult records corr keys diags ∧
      (corr = emptyCorrelation ∨
        ∃ changed jobs, corr = correlate changed jobs cfg.skip_successful_files) ∧
      (records = [] ∨ ∃ l, records = project cfg l) := by
  unfold getChangedFiles at h
  split at h
  · split at h
    · injection h with h'
      exact ⟨[], emptyCorrelation, [],
        [⟨"skipped_same_sha", "base and head are the same revision"⟩],
        h'.symm, Or.inl rfl, Or.inl rfl⟩
    · split at h
      · injection h with h'
        refine ⟨_, _, _, _, h'.symm, ?_, Or.inr ⟨_, rfl⟩⟩
        rcases runWorkflowCorr_shape cfg wf _ with hc | ⟨jobs, hj⟩
        · exact Or.inl hc
        · exact Or.inr ⟨_, jobs, hj⟩
      · exact Except.noConfusion h
      · exact Except.noConfusion h
  · exact Except.noConfusion h
  · exact Except.noConfusion h

/-! ## Witness fixtures: a concrete repository, configurations and jobs -/

/-- A two-revision repository: symbolic names A and B resolve to distinct
hashes, and the diff between them adds one file and renames another. -/
def repoW : Repo :=
  ⟨fun r => if r = "A" then some "aaa" else if r = "B" then some "bbb" else none,
   fun _ _ => [ChangeRecord.added "x.py",
     ChangeRecord.renamed "src/util.py" "src/helpers.py" 90]⟩

/-- A configuration whose endpoints are equal and which asks to skip the
identical-endpoint case. -/
def cfgSame : Config :=
  { base := "A", head := "A", skip_same_sha := true }

/-- The result of the identical-endpoint short-circuit. -/
def resSame : ChangedFiles :=
  assembleResult [] emptyCorrelation []
    [⟨"skipped_same_sha", "base and head are the same revision"⟩]

/-- A completed failed job with no file scope. -/
def jobFail : WorkflowJob :=
  ⟨1, 10, "build-backend", JobStatus.completed, Conclusion.failure, none⟩

/-- A completed successful job with no file scope. -/
def jobPass : WorkflowJob :=
  ⟨2, 11, "build-frontend", JobStatus.completed, Conclusion.success, none⟩

/-- A workflow answer with no runs. -/
def wf0 : WorkflowData :=
  Except.ok []

/-! ## Claim theorems over the orchestrator -/

/-- C1.  In every result of `get_changed_files` the rebuild and skip sets
are disjoint; and a file implicated both by a completed failed job and by a
completed successful job is placed in the rebuild set and kept out of the
skip set by the correlator. -/
theorem rebuild_skip_disjoint (repo : Repo) (cfg : Config) (wf : WorkflowData)
    (res : ChangedFiles) (h : getChangedFiles repo cfg wf = Except.ok res) :
    (∀ f, f ∈ res.files_to_rebuild → f ∉ res.files_to_skip) ∧
    (∀ (changed : List String) (jobs : List WorkflowJob) (b : Bool) (f : String)
      (jf js : WorkflowJob), jf ∈ jobs → js ∈ jobs →
      jf.status = JobStatus.completed → js.status = JobStatus.completed →
      isFailedConclusion jf.conclusion = true → js.conclusion = Conclusion.success →
      f ∈ implicatedFiles changed jf → f ∈ implicatedFiles changed js →
      f ∈ (correlate changed jobs b).files_to_rebuild ∧
        f ∉ (correlate changed jobs b).files_to_skip) := by
  constructor
  · obtain ⟨records, corr, keys, diags, hres, hcorr, _⟩ :=
      getChangedFiles_ok_shape repo cfg wf res h
    intro f hf hskip
    rw [hres] at hf hskip
    simp only [assembleResult] at hf hskip
    rcases hcorr with hc | ⟨changed, jobs, hc⟩
    · rw [hc] at hf
      simp [emptyCorrelation] at hf
    · rw [hc] at hf hskip
      exact correlate_skip_not_rebuild changed jobs cfg.skip_successful_files f hskip hf
  · intro changed jobs b f jf js hjf hjs hstf hsts hcf hcs hif his
    have hmem := correlate_failed_mem_rebuild changed jobs b f jf hjf hstf hcf hif
    refine ⟨hmem, ?_⟩
    intro hskip
    exact correlate_skip_not_rebuild changed jobs b f hskip hmem

/-- Witness for C1: a file touched by both a failed and a successful job is
rebuilt and not skipped. -/
theorem rebuild_skip_disjoint_witness :
    "a.py" ∈ (correlate ["a.py"] [jobFail, jobPass] true).files_to_rebuild ∧
      "a.py" ∉ (correlate ["a.py"] [jobFail, jobPass] true).files_to_skip :=
  (rebuild_skip_disjoint repoW cfgSame wf0 resSame rfl).2
    ["a.py"] [jobFail, jobPass] true "a.py" jobFail jobPass
    (by simp) (by simp [List.mem_cons]) rfl rfl rfl rfl (by decide) (by decide)

/-- C3.  In every result of `get_changed_files` each count field equals the
length of its list: the all-changed, added, modified, deleted and renamed
counts (and the type-changed count as well). -/
theorem counts_match_lists (repo : Repo) (cfg : Config) (wf : WorkflowData)
    (res : ChangedFiles) (h : getChangedFiles repo cfg wf = Except.ok res) :
    res.all_changed_files_count = res.all_changed_files.length ∧
    res.added_files_count = res.added_files.length ∧
    res.modified_files_count = res.modified_files.length ∧
    res.deleted_files_count = res.deleted_files.length ∧
    res.renamed_files_count = res.renamed_files.length ∧
    res.type_changed_files_count = res.type_changed_files.length := by
  obtain ⟨records, corr, keys, diags, hres, _, _⟩ :=
    getChangedFiles_ok_shape repo cfg wf res h
  subst hres
  simp [assembleResult]

/-- Witness for C3: the counts of a concrete produced result. -/
theorem counts_match_lists_witness :
    resSame.all_changed_files_count = resSame.all_changed_files.length ∧
    resSame.added_files_count = resSame.added_files.length ∧
    resSame.modified_files_count = resSame.modified_files.length ∧
    resSame.deleted_files_count = resSame.deleted_files.length ∧
    resSame.renamed_files_count = resSame.renamed_files.length ∧
    resSame.type_changed_files_count = resSame.type_changed_files.length :=
  counts_match_lists repoW cfgSame wf0 resSame rfl

/-- Projecting no records yields no records. -/
theorem project_nil (cfg : Config) : project cfg [] = [] := by
  unfold project applyPosix applyDirNames splitRenames
  by_cases h1 : cfg.output_renamed_as_deleted_added = true <;>
    by_cases h2 : cfg.dir_names = true <;>
      by_cases h3 : cfg.use_posix_path_separator = true <;>
        simp [h1, h2, h3, dedupFirst]

/-- The workflow step never contributes a `skipped_same_sha` diagnostic. -/
theorem runWorkflowDiags_ne_same_sha (cfg : Config) (wf : WorkflowData) :
    ∀ d ∈ runWorkflowDiags cfg wf, d.category ≠ "skipped_same_sha" := by
  intro d hd
  unfold runWorkflowDiags at hd
  by_cases ht : cfg.track_workflow_failures = true
  · cases wf with
    | ok jobs => simp [ht] at hd
    | error e =>
      simp only [ht, if_true, if_pos] at hd
      rw [List.mem_singleton] at hd
      subst hd
      cases e <;> simp [WorkflowFailure.category]
  · simp [ht] at hd

/-- C2.  When both endpoints resolve to the same revision,
`skip_same_sha=true` yields a successful empty result carrying a
`skipped_same_sha` diagnostic, while `skip_same_sha=false` yields an empty
result with no such diagnostic. -/
theorem same_sha_skip_contract (repo : Repo) (cfg : Config) (wf : WorkflowData)
    (r : String) (hb : repo.resolve cfg.base = some r)
    (hh : repo.resolve cfg.head = some r) :
    (cfg.skip_same_sha = true →
      ∃ res, getChangedFiles repo cfg wf = Except.ok res ∧
        res.all_changed_files = [] ∧
        ∃ d ∈ res.diagnostics, d.category = "skipped_same_sha") ∧
    (cfg.skip_same_sha = false →
      ∀ res, getChangedFiles repo cfg wf = Except.ok res →
        res.all_changed_files = [] ∧
        ∀ d ∈ res.diagnostics, d.category ≠ "skipped_same_sha") := by
  constructor
  · intro hskip
    have hcall : getChangedFiles repo cfg wf = Except.ok resSame := by
      unfold getChangedFiles
      rw [hb, hh]
      split
      · rename_i x1 x2 b1 h1 heq1 heq2
        injection heq1 with e1
        injection heq2 with e2
        subst e1
        subst e2
        rw [if_pos ⟨rfl, hskip⟩]
        rfl
      · rename_i heq
        exact Option.noConfusion heq
      · rename_i heq hguard
        exact Option.noConfusion heq
    refine ⟨resSame, hcall, ?_, ?_⟩
    · simp [resSame, assembleResult, dedupFirst]
    · exact ⟨⟨"skipped_same_sha", "base and head are the same revision"⟩,
        by simp [resSame, assembleResult], rfl⟩
  · intro hskip res h
    unfold getChangedFiles at h
    rw [hb, hh] at h
    split at h
    · rename_i x1 x2 b1 h1 heq1 heq2
      injection heq1 with e1
      injection heq2 with e2
      subst e1
      subst e2
      split at h
      · rename_i hcond
        rw [hskip] at hcond
        exact absurd hcond.2 (by simp)
      · split at h
        · rename_i xm xg m1 groups1 heqm heqg
          injection h with h'
          subst h'
          constructor
          · have hfe : filteredRecords repo cfg r r m1 = [] := by
              simp [filteredRecords, diffEngine]
            rw [resultFor, hfe, project_nil]
            simp [assembleResult, dedupFirst]
          · rw [resultFor]
            intro d hd
            simp only [assembleResult] at hd
            exact runWorkflowDiags_ne_same_sha cfg wf d hd
        · exact Except.noConfusion h
        · exact Except.noConfusion h
    · exact Except.noConfusion h
    · exact Except.noConfusion h

/-- Witness for C2: the contract at the concrete two-revision repository
with identical endpoints. -/
theorem same_sha_skip_contract_witness :
    ∃ res, getChangedFiles repoW cfgSame wf0 = Except.ok res ∧
      res.all_changed_files = [] ∧
      ∃ d ∈ res.diagnostics, d.category = "skipped_same_sha" :=
  (same_sha_skip_contract repoW cfgSame wf0 "aaa" rfl rfl).1 rfl

/-- After rename splitting no record is a rename. -/
theorem splitRenames_not_renamed (cfg : Config)
    (hflag : cfg.output_renamed_as_deleted_added = true)
    (l : List ChangeRecord) :
    ∀ r ∈ splitRenames cfg l, r.isRenamed = false := by
  intro r hr
  unfold splitRenames at hr
  rw [if_pos hflag, List.mem_flatMap] at hr
  obtain ⟨a, ha, hra⟩ := hr
  cases a with
  | renamed o n s =>
    rcases List.mem_cons.mp hra with h1 | h1
    · subst h1; rfl
    · rw [List.mem_singleton] at h1
      subst h1; rfl
  | added p => rw [List.mem_singleton] at hra; subst hra; rfl
  | modified p => rw [List.mem_singleton] at hra; subst hra; rfl
  | deleted p => rw [List.mem_singleton] at hra; subst hra; rfl
  | type_changed p => rw [List.mem_singleton] at hra; subst hra; rfl

/-- Path transforms keep a record's kind. -/
theorem mapPath_isRenamed (f : String → String) (r : ChangeRecord) :
    (ChangeRecord.mapPath f r).isRenamed = r.isRenamed := by
  cases r <;> rfl

/-- With rename splitting on, the fully projected change set holds no
rename record. -/
theorem project_not_renamed (cfg : Config)
    (hflag : cfg.output_renamed_as_deleted_added = true)
    (l : List ChangeRecord) :
    ∀ r ∈ project cfg l, r.isRenamed = false := by
  intro r hr
  have base := splitRenames_not_renamed cfg hflag l
  unfold project applyPosix applyDirNames at hr
  by_cases h2 : cfg.dir_names = true <;> by_cases h3 : cfg.use_posix_path_separator = true
  · rw [if_pos h2, if_pos h3, List.mem_map] at hr
    obtain ⟨r1, hr1, hr1e⟩ := hr
    rw [mem_dedupFirst, List.mem_map] at hr1
    obtain ⟨r2, hr2, hr2e⟩ := hr1
    rw [← hr1e, mapPath_isRenamed, ← hr2e, mapPath_isRenamed]
    exact base r2 hr2
  · rw [if_pos h2, if_neg h3, mem_dedupFirst, List.mem_map] at hr
    obtain ⟨r2, hr2, hr2e⟩ := hr
    rw [← hr2e, mapPath_isRenamed]
    exact base r2 hr2
  · rw [if_neg h2, if_pos h3, List.mem_map] at hr
    obtain ⟨r1, hr1, hr1e⟩ := hr
    rw [← hr1e, mapPath_isRenamed]
    exact base r1 hr1
  · rw [if_neg h2, if_neg h3] at hr
    exact base r hr

/-- C4.  Under `output_renamed_as_deleted_added=true` each detected rename
contributes its deletion and its addition to the projected change set
(stated with the other path transforms off, which would otherwise rewrite
the two paths), no rename survives projection, and every successful result
has an empty rename list and a zero rename count. -/
theorem rename_splitting_complete (cfg : Config)
    (hflag : cfg.output_renamed_as_deleted_added = true) :
    (∀ (records : List ChangeRecord) (o n : String) (s : Nat),
      ChangeRecord.renamed o n s ∈ records →
      cfg.dir_names = false → cfg.use_posix_path_separator = false →
      ChangeRecord.deleted o ∈ project cfg records ∧
      ChangeRecord.added n ∈ project cfg records) ∧
    (∀ (records : List ChangeRecord) (r : ChangeRecord),
      r ∈ project cfg records → r.isRenamed = false) ∧
    (∀ (repo : Repo) (wf : WorkflowData) (res : ChangedFiles),
      getChangedFiles repo cfg wf = Except.ok res →
      res.renamed_files = [] ∧ res.renamed_files_count = 0) := by
  refine ⟨?_, ?_, ?_⟩
  · intro records o n s hmem hdir hpos
    have hp : project cfg records = splitRenames cfg records := by
      unfold project applyPosix applyDirNames
      rw [if_neg (by simp [hpos]), if_neg (by simp [hdir])]
    rw [hp]
    unfold splitRenames
    rw [if_pos hflag]
    constructor
    · rw [List.mem_flatMap]
      exact ⟨ChangeRecord.renamed o n s, hmem, by simp⟩
    · rw [List.mem_flatMap]
      exact ⟨ChangeRecord.renamed o n s, hmem, by simp⟩
  · intro records r hr
    exact project_not_renamed cfg hflag records r hr
  · intro repo wf res h
    obtain ⟨records, corr, keys, diags, hres, _, hrec⟩ :=
      getChangedFiles_ok_shape repo cfg wf res h
    have hnil : renamedOf records = [] := by
      rcases hrec with hrec | ⟨l, hrec⟩
      · subst hrec; rfl
      · subst hrec
        rw [renamedOf, List.filterMap_eq_nil_iff]
        intro a ha
        have := project_not_renamed cfg hflag l a ha
        cases a <;> simp_all [ChangeRecord.isRenamed]
    subst hres
    simp [assembleResult, hnil]

/-- Witness for C4: the rename of the concrete repository splits into its
deletion and addition under the flag. -/
theorem rename_splitting_complete_witness :
    ChangeRecord.deleted "src/util.py" ∈
      project { output_renamed_as_deleted_added := true }
        [ChangeRecord.renamed "src/util.py" "src/helpers.py" 90] ∧
    ChangeRecord.added "src/helpers.py" ∈
      project { output_renamed_as_deleted_added := true }
        [ChangeRecord.renamed "src/util.py" "src/helpers.py" 90] :=
  (rename_splitting_complete { output_renamed_as_deleted_added := true } rfl).1
    [ChangeRecord.renamed "src/util.py" "src/helpers.py" 90]
    "src/util.py" "src/helpers.py" 90 (List.mem_singleton.mpr rfl) rfl rfl

/-- C8.  When workflow tracking is requested but the subsystem cannot
operate, the call still succeeds: the workflow fields of the result are all
empty and the diagnostics carry the failure's category. -/
theorem workflow_failure_downgraded (repo : Repo) (cfg : Config)
    (e : WorkflowFailure) (b h : String) (m : PatternMatcher)
    (groups : List (String × PatternMatcher))
    (htrack : cfg.track_workflow_failures = true)
    (hb : repo.resolve cfg.base = some b) (hh : repo.resolve cfg.head = some h)
    (hne : ¬(b = h ∧ cfg.skip_same_sha = true))
    (hm : mkMatcher cfg.files cfg.files_ignore cfg.negation_first = Except.ok m)
    (hg : compileGroups cfg = Except.ok groups) :
    ∃ res, getChangedFiles repo cfg (Except.error e) = Except.ok res ∧
      res.files_to_rebuild = [] ∧ res.files_to_skip = [] ∧
      res.rebuild_reasons = [] ∧ res.failed_jobs = [] ∧
      res.successful_jobs = [] ∧
      ∃ d ∈ res.diagnostics, d.category = e.category := by
  refine ⟨resultFor repo cfg (Except.error e) b h m groups,
    ?_, ?_, ?_, ?_, ?_, ?_, ?_⟩
  · unfold getChangedFiles
    rw [hb, hh]
    split
    · rename_i x1 x2 b1 h1 heq1 heq2
      injection heq1 with e1
      injection heq2 with e2
      subst e1
      subst e2
      rw [if_neg hne, hm, hg]
    · rename_i heq
      exact Option.noConfusion heq
    · rename_i heq hguard
      exact Option.noConfusion heq
  · simp [resultFor, assembleResult, runWorkflowCorr, htrack, emptyCorrelation]
  · simp [resultFor, assembleResult, runWorkflowCorr, htrack, emptyCorrelation]
  · simp [resultFor, assembleResult, runWorkflowCorr, htrack, emptyCorrelation]
  · simp [resultFor, assembleResult, runWorkflowCorr, htrack, emptyCorrelation]
  · simp [resultFor, assembleResult, runWorkflowCorr, htrack, emptyCorrelation]
  · refine ⟨⟨e.category, "workflow subsystem unavailable"⟩, ?_, rfl⟩
    simp [resultFor, assembleResult, runWorkflowDiags, htrack]

/-- A configuration asking for workflow tracking over the two distinct
revisions of the concrete repository. -/
def cfgTrack : Config :=
  { base := "A", head := "B", track_workflow_failures := true }

/-- The matcher compiled from empty include and exclude lists. -/
def matcher0 : PatternMatcher :=
  ⟨[], [], false⟩

/-- Witness for C8: a missing token downgrades to a `token_missing`
diagnostic with empty workflow fields on the concrete repository. -/
theorem workflow_failure_downgraded_witness :
    ∃ res, getChangedFiles repoW cfgTrack
        (Except.error WorkflowFailure.token_missing) = Except.ok res ∧
      res.files_to_rebuild = [] ∧ res.files_to_skip = [] ∧
      res.rebuild_reasons = [] ∧ res.failed_jobs = [] ∧
      res.successful_jobs = [] ∧
      ∃ d ∈ res.diagnostics,
        d.category = WorkflowFailure.token_missing.category :=
  workflow_failure_downgraded repoW cfgTrack WorkflowFailure.token_missing
    "aaa" "bbb" matcher0 [] rfl rfl rfl
    (fun hc => absurd hc.1 (by decide)) rfl rfl

/-- Counterexample for C9: the repository's tests construct Config with the
keyword `base_sha` (and `sha`), which lies outside the section 6
enumeration, and construction accepts it instead of failing with
`ConfigError`. -/
theorem config_spec6_enumeration_counterexample :
    (configConstruct ["base_sha", "sha"]).isOk = true ∧
    ("base_sha" ∈ spec6ConfigKeys → False) ∧
    ("sha" ∈ spec6ConfigKeys → False) := by
  decide

/-- C9 (amended).  Config construction accepts the section 6 option
enumeration together with the revision keyword aliases `base_sha` and
`sha`; every keyword outside this accepted set is rejected with
`ConfigError`. -/
theorem config_unknown_key_config_error :
    (∀ ks : List String, (∀ k ∈ ks, k ∈ acceptedConfigKeys) →
      configConstruct ks = Except.ok ()) ∧
    (∀ k : String, k ∉ acceptedConfigKeys →
      configConstruct [k] =
        Except.error (LeError.configError ("unknown Config option " ++ k))) := by
  constructor
  · intro ks hks
    unfold configConstruct
    have hfind : ks.find? (fun k => decide (k ∉ acceptedConfigKeys)) = none := by
      rw [List.find?_eq_none]
      intro x hx
      simp [hks x hx]
    rw [hfind]
  · intro k hk
    unfold configConstruct
    have hfind : List.find? (fun k => decide (k ∉ acceptedConfigKeys)) [k] = some k := by
      rw [List.find?_cons_of_pos]
      simp [hk]
    rw [hfind]

/-- Witness for C9: a keyword outside the accepted set is rejected. -/
theorem config_unknown_key_config_error_witness :
    configConstruct ["bogus_option"] =
      Except.error (LeError.configError ("unknown Config option " ++ "bogus_option")) :=
  config_unknown_key_config_error.2 "bogus_option" (by decide)
